import Mathlib

/-!
Verification of the EmbeddedTelnet library (src/EmbeddedTelnet.c together
with include/EmbeddedTelnet.h) against its natural-language specification.

The C code is shallowly embedded: machine bytes become Nat values (every
byte read from a wire buffer is in 0..255), the in-place byte buffer of
telnet_read becomes a List Nat that the parser loop mutates by erasing
elements (mirroring the memmove-based left shift of _delete_uint8_tacter),
and every call the code makes to the caller-supplied writer sink is
recorded as one List Nat entry in an event list.  Callbacks are modelled
as pure functions from packets to Bool; an absent callback or session or
buffer is an Option none.  Undefined behaviour of the C source cannot be
represented: a store past the end of the 64-byte subnegotiation array is
modelled as a List.set at an out-of-range index (a no-op) while the
recorded length still advances exactly as the C length field does, and a
bit test above index 63 of the 64-bit option word is modelled by
Nat.testBit, which returns false there.
-/

namespace EmbeddedTelnet

/-! ## Wire constants (include/EmbeddedTelnet.h, telnet_command_t and friends) -/

def TELNET_SE : Nat := 240
def TELNET_NOP : Nat := 241
def TELNET_SB : Nat := 250
def TELNET_WILL : Nat := 251
def TELNET_WONT : Nat := 252
def TELNET_DO : Nat := 253
def TELNET_DONT : Nat := 254
def TELNET_IAC : Nat := 255

def TELNET_SE_IS : Nat := 0
def TELNET_SE_SEND : Nat := 1

def TELNET_OPTION_BINARY : Nat := 0
def TELNET_OPTION_MAX : Nat := 50

/-- Parser states, from telnet_parse_state_t in the header. -/
inductive telnet_parse_state_t where
  | READY
  | IN_COMMAND
  | IN_OPTION
  | IN_SUBNEGOTIATION_TYPE
  | IN_SUBNEGOTIATION_VALUE
  | IN_SB_IAC
deriving DecidableEq, Repr

/-- One telnet control packet, from telnet_packet_t in the header.  The C
field subnegotiation_data is a fixed uint8_t[64] array; here it is a list
that telnet_init_packet fills with 64 zero bytes, matching the memset. -/
structure telnet_packet_t where
  command : Nat
  option : Nat
  subnegotiation_type : Nat
  subnegotiation_length : Nat
  subnegotiation_data : List Nat
deriving DecidableEq, Repr

/-- Session state, from telnet_session_t in the header.  The C field
subnegotiation_options is a const uint8_t pointer array of length
TELNET_OPTION_MAX; a NULL entry is none.  The opaque user_data pointer is
not modelled (no claim concerns it).  The options field is the uint64_t
support bitset. -/
structure telnet_session_t where
  state : telnet_parse_state_t
  packet : telnet_packet_t
  options : Nat
  subnegotiation_options : List (Option (List Nat))
deriving DecidableEq, Repr

/-- telnet_init_packet: resets a packet to its defaults.  The NULL-pointer
guard of the C function is irrelevant here because the result is a value. -/
def telnet_init_packet : telnet_packet_t where
  command := TELNET_NOP
  option := TELNET_OPTION_BINARY
  subnegotiation_type := TELNET_SE_IS
  subnegotiation_length := 0
  subnegotiation_data := List.replicate 64 0

/-- telnet_init: resets a session to its defaults. -/
def telnet_init : telnet_session_t where
  state := telnet_parse_state_t.READY
  packet := telnet_init_packet
  options := 0
  subnegotiation_options := List.replicate TELNET_OPTION_MAX none

/-- telnet_get_option: the macro _bit_get reads bit number option of the
uint64_t bitset.  Nat.testBit is exact for option below 64; the C shift is
undefined from 64 upward, the claims stay below TELNET_OPTION_MAX. -/
def telnet_get_option (session : telnet_session_t) (option : Nat) : Bool :=
  session.options.testBit option

/-- telnet_set_option via the macros _bit_set and _bit_clear on the
64-bit word. -/
def telnet_set_option (session : telnet_session_t) (option : Nat) (value : Bool) :
    telnet_session_t :=
  if value then
    { session with options := session.options ||| (1 <<< option) }
  else
    { session with options := session.options &&& ((2 ^ 64 - 1) ^^^ (1 <<< option)) }

/-- telnet_supported_options: the C body runs
for (opt = option; opt < TELNET_OPTION_MAX; opt++) reading
_bit_get(session->options, opt) into a local bool that it discards
(the comment in the source reads: Do something with the supported
option...), and it opens and closes the va_list without ever reading an
argument from it.  No store to the session occurs, so the function
returns the session unchanged.  The variadic arguments are the list
args. -/
def telnet_supported_options (session : telnet_session_t) (option : Nat)
    (args : List Nat) : telnet_session_t :=
  let _ := (List.range TELNET_OPTION_MAX).map fun opt =>
    if option ≤ opt then telnet_get_option session opt else false
  let _ := args
  session

/-- telnet_get_subnegotiation_option: reads the pointer table at the given
index.  The C array has TELNET_OPTION_MAX entries; an index at or past the
end is an out-of-bounds read in C, modelled here as none. -/
def telnet_get_subnegotiation_option (session : telnet_session_t) (option : Nat) :
    Option (List Nat) :=
  session.subnegotiation_options.getD option none

/-- telnet_set_subnegotiation_option: stores a borrowed reply value (or
none) in the pointer table at the given index. -/
def telnet_set_subnegotiation_option (session : telnet_session_t) (option : Nat)
    (value : Option (List Nat)) : telnet_session_t :=
  { session with subnegotiation_options := session.subnegotiation_options.set option value }

/-- The C strlen applied to a registered reply value: the number of bytes
before the first zero byte. -/
def strlen (value : List Nat) : Nat :=
  (value.takeWhile fun b => b ≠ 0).length

/-- The bytes the C strlen measures: the prefix before the first zero byte. -/
def c_str (value : List Nat) : List Nat :=
  value.takeWhile fun b => b ≠ 0

/-- memcpy(dest, src, n) over list-modelled byte arrays: the first n bytes
come from src, the rest of dest stays. -/
def memcpy (dest src : List Nat) (n : Nat) : List Nat :=
  src.take n ++ dest.drop n

/-- telnet_write_packet: serializes one packet into the local buffer and
hands that buffer to the writer in a single call; the returned list is the
byte span of that one writer invocation.  Structure of the C switch:
option negotiation commands append the option byte, TELNET_SB appends
option, subnegotiation type, subnegotiation_length bytes of data (memcpy,
with no escaping of IAC bytes inside the data) and the IAC SE terminator,
every other command sends just IAC and the command byte. -/
def telnet_write_packet (packet : telnet_packet_t) : List Nat :=
  [TELNET_IAC, packet.command] ++
    (if packet.command = TELNET_DO ∨ packet.command = TELNET_DONT ∨
        packet.command = TELNET_WILL ∨ packet.command = TELNET_WONT then
      [packet.option]
    else if packet.command = TELNET_SB then
      [packet.option, packet.subnegotiation_type] ++
        packet.subnegotiation_data.take packet.subnegotiation_length ++
        [TELNET_IAC, TELNET_SE]
    else [])

/-- The automatic_response local of _handle_incomming_packet: true when no
callback is supplied, otherwise the callback result on the packet. -/
def automatic_response (callback : Option (telnet_packet_t → Bool))
    (packet : telnet_packet_t) : Bool :=
  match callback with
  | none => true
  | some f => f packet

/-- _handle_incomming_packet: dispatch of a completed packet.  Returns the
list of writer invocations it performs (each entry one call to the writer
sink, produced through telnet_write_packet).  The response packet starts
from telnet_init_packet and is filled per the C switch; the TELNET_SB case
copies strlen bytes of the registered reply into the zeroed response data
array with memcpy. -/
def handle_incomming_packet (session : telnet_session_t)
    (callback : Option (telnet_packet_t → Bool)) : List (List Nat) :=
  let packet := session.packet
  if automatic_response callback packet = false then []
  else if packet.command = TELNET_WILL then
    [telnet_write_packet { telnet_init_packet with
      command := if telnet_get_option session packet.option then TELNET_DO else TELNET_DONT,
      option := packet.option }]
  else if packet.command = TELNET_WONT then
    [telnet_write_packet { telnet_init_packet with
      command := TELNET_DONT, option := packet.option }]
  else if packet.command = TELNET_DO then
    [telnet_write_packet { telnet_init_packet with
      command := if telnet_get_option session packet.option then TELNET_WILL else TELNET_WONT,
      option := packet.option }]
  else if packet.command = TELNET_DONT then
    [telnet_write_packet { telnet_init_packet with
      command := TELNET_WONT, option := packet.option }]
  else if packet.command = TELNET_SB then
    if packet.subnegotiation_type = TELNET_SE_SEND then
      match telnet_get_subnegotiation_option session packet.option with
      | some value =>
        [telnet_write_packet { telnet_init_packet with
          command := TELNET_SB,
          option := packet.option,
          subnegotiation_type := TELNET_SE_IS,
          subnegotiation_length := strlen value,
          subnegotiation_data :=
            memcpy telnet_init_packet.subnegotiation_data (c_str value) (strlen value) }]
      | none => []
    else []
  else []

/-- _delete_uint8_tacter: removes the byte at the given index by shifting
the tail left by one (memmove); when the index is out of range the buffer
is returned unchanged, exactly as the C guard does.  List.eraseIdx has
both behaviours. -/
def delete_uint8_tacter (data : List Nat) (index : Nat) : List Nat :=
  data.eraseIdx index

/-- Result of one iteration of the telnet_read loop body (the switch on
session->state): the updated session, whether the byte stays in the buffer
(false exactly when the branch ran _TELNET_DELETE_CHARACTER or the inline
delete), the packets handed to _handle_incomming_packet, and the writer
invocations performed. -/
structure telnet_step_result_t where
  s : telnet_session_t
  keep : Bool
  pkts : List telnet_packet_t
  ws : List (List Nat)
deriving DecidableEq, Repr

/-- Appends one byte to the subnegotiation data of a packet:
subnegotiation_data[subnegotiation_length++] = c.  The C code performs no
bounds check; when subnegotiation_length is at or past 64 the C store is
out of bounds (List.set is then a no-op) while the length field still
increments. -/
def subnegotiation_append (packet : telnet_packet_t) (c : Nat) : telnet_packet_t :=
  { packet with
    subnegotiation_data := packet.subnegotiation_data.set packet.subnegotiation_length c,
    subnegotiation_length := packet.subnegotiation_length + 1 }

/-- The body of the telnet_read loop for one byte c, translated case by
case from the switch(session->state) of the C source.  In IN_COMMAND the
command field is assigned before any test, so an escaped IAC also leaves
command = TELNET_IAC behind.  Branches that call _handle_incomming_packet
record the current packet in pkts and its writer calls in ws. -/
def telnet_read_step (callback : Option (telnet_packet_t → Bool))
    (session : telnet_session_t) (c : Nat) : telnet_step_result_t :=
  match session.state with
  | telnet_parse_state_t.READY =>
    if c = TELNET_IAC then
      ⟨{ session with state := telnet_parse_state_t.IN_COMMAND }, false, [], []⟩
    else
      ⟨session, true, [], []⟩
  | telnet_parse_state_t.IN_COMMAND =>
    let session := { session with packet := { session.packet with command := c } }
    if c = TELNET_IAC then
      ⟨{ session with state := telnet_parse_state_t.READY }, true, [], []⟩
    else if c = TELNET_DO ∨ c = TELNET_DONT ∨ c = TELNET_WILL ∨ c = TELNET_WONT then
      ⟨{ session with state := telnet_parse_state_t.IN_OPTION }, false, [], []⟩
    else if c = TELNET_SB then
      ⟨{ session with state := telnet_parse_state_t.IN_SUBNEGOTIATION_TYPE }, false, [], []⟩
    else
      ⟨{ session with state := telnet_parse_state_t.READY }, false, [session.packet],
        handle_incomming_packet session callback⟩
  | telnet_parse_state_t.IN_OPTION =>
    let session := { session with packet := { session.packet with option := c } }
    ⟨{ session with state := telnet_parse_state_t.READY }, false, [session.packet],
      handle_incomming_packet session callback⟩
  | telnet_parse_state_t.IN_SUBNEGOTIATION_TYPE =>
    ⟨{ session with
        state := telnet_parse_state_t.IN_SUBNEGOTIATION_VALUE,
        packet := { session.packet with subnegotiation_type := c } }, false, [], []⟩
  | telnet_parse_state_t.IN_SUBNEGOTIATION_VALUE =>
    if c = TELNET_IAC then
      ⟨{ session with state := telnet_parse_state_t.IN_SB_IAC }, false, [], []⟩
    else
      ⟨{ session with packet := subnegotiation_append session.packet c }, false, [], []⟩
  | telnet_parse_state_t.IN_SB_IAC =>
    if c = TELNET_IAC then
      ⟨{ session with
          state := telnet_parse_state_t.IN_SUBNEGOTIATION_VALUE,
          packet := subnegotiation_append session.packet TELNET_IAC }, false, [], []⟩
    else if c = TELNET_SE then
      ⟨{ session with state := telnet_parse_state_t.READY }, false, [session.packet],
        handle_incomming_packet session callback⟩
    else
      ⟨{ session with
          state := telnet_parse_state_t.IN_COMMAND,
          packet := telnet_init_packet }, true, [session.packet],
        handle_incomming_packet session callback⟩

/-- Result of running the telnet_read loop: final session, the live
region of the buffer (its length is the new_length the C function
returns), the dispatched packets and the writer invocations. -/
structure telnet_run_result_t where
  s : telnet_session_t
  out : List Nat
  pkts : List telnet_packet_t
  ws : List (List Nat)
deriving DecidableEq, Repr

/-- The loop of telnet_read, translated with its index mechanics: data is
the live region of the caller buffer (the first new_length bytes, so
new_length is data.length), i the loop index.  A branch that deletes the
current byte erases it from the live region and reexamines index i (the
i-- of _TELNET_DELETE_CHARACTER followed by the i++ of the for loop);
a branch that keeps the byte advances to i + 1. -/
def telnet_read_loop (callback : Option (telnet_packet_t → Bool))
    (session : telnet_session_t) (data : List Nat) (i : Nat) : telnet_run_result_t :=
  if h : i < data.length then
    let c := data[i]
    let st := telnet_read_step callback session c
    let r :=
      if st.keep then
        telnet_read_loop callback st.s data (i + 1)
      else
        telnet_read_loop callback st.s (delete_uint8_tacter data i) i
    ⟨r.s, r.out, st.pkts ++ r.pkts, st.ws ++ r.ws⟩
  else
    ⟨session, data, [], []⟩
termination_by data.length - i
decreasing_by
  · omega
  · simp only [delete_uint8_tacter, List.length_eraseIdx_of_lt h]
    omega

/-- What telnet_read hands back: the returned length, the buffer (none
models a NULL data pointer; when processing ran, the list is the live
compacted region whose length is the returned length), the session after
the call, the packets dispatched and the writer invocations performed. -/
structure telnet_read_result_t where
  length : Nat
  buffer : Option (List Nat)
  session : Option telnet_session_t
  pkts : List telnet_packet_t
  ws : List (List Nat)
deriving DecidableEq, Repr

/-- telnet_read.  The guards of the C source translate directly: a NULL
data pointer or a zero length returns 0 with nothing touched; a NULL
session returns the original length with the buffer untouched; otherwise
the loop runs over the first length bytes of the buffer from index 0.  In
the intended calling convention length is the number of valid bytes in
the buffer, so the processed region is buffer.take length. -/
def telnet_read (session : Option telnet_session_t) (data : Option (List Nat))
    (length : Nat) (callback : Option (telnet_packet_t → Bool)) : telnet_read_result_t :=
  match data with
  | none => ⟨0, none, session, [], []⟩
  | some buf =>
    if length = 0 then ⟨0, some buf, session, [], []⟩
    else
      match session with
      | none => ⟨length, some buf, none, [], []⟩
      | some s =>
        let r := telnet_read_loop callback s (buf.take length) 0
        ⟨r.out.length, some r.out, some r.s, r.pkts, r.ws⟩

/-- The telnet_read loop rephrased as a structural fold over the incoming
bytes: each byte is examined once by telnet_read_step; a kept byte goes to
the output, a deleted byte does not.  The equivalence with the index-based
telnet_read_loop is proved below (telnet_read_loop_eq_bytes). -/
def telnet_read_bytes (callback : Option (telnet_packet_t → Bool))
    (session : telnet_session_t) : List Nat → telnet_run_result_t
  | [] => ⟨session, [], [], []⟩
  | c :: rest =>
    let st := telnet_read_step callback session c
    let r := telnet_read_bytes callback st.s rest
    ⟨r.s, if st.keep then c :: r.out else r.out, st.pkts ++ r.pkts, st.ws ++ r.ws⟩

/-- telnet_write: escapes application data for transmission.  Translated
with the index mechanics of the C loop: start marks the beginning of the
current segment, new_length counts the bytes of the segment including the
current one, rest is the part of data from index i.  On an IAC byte the
code first writes the current segment (which, in the C as written,
includes the IAC byte itself because new_length was already incremented),
then the two-byte escape, then restarts the segment after the IAC.  After
the loop the trailing segment is always written, even when empty. -/
def telnet_write_go (data : List Nat) :
    List Nat → Nat → Nat → Nat → List (List Nat)
  | [], start, new_length, _ => [(data.drop start).take new_length]
  | c :: rest, start, new_length, i =>
    let new_length := new_length + 1
    if c = TELNET_IAC then
      ((data.drop start).take new_length) :: [TELNET_IAC, TELNET_IAC] ::
        telnet_write_go data rest (i + 1) 0 (i + 1)
    else
      telnet_write_go data rest start new_length (i + 1)

/-- telnet_write: the NULL session, NULL data, zero length and NULL
writer guards of the C function all return without invoking the writer;
otherwise the loop above runs from index 0.  The returned list holds the
byte span of each writer invocation in order. -/
def telnet_write (data : List Nat) : List (List Nat) :=
  if data.length = 0 then [] else telnet_write_go data data 0 0 0

/-! ## Specification-side definitions

The following three definitions transcribe the state table of section 4.3
of the specification (States and transitions), for the refinement claims:
which bytes remain in the buffer as payload, which state follows, and how
many control bytes are consumed.  They are written from the words of the
specification, to be compared with the translation of the C source
above. -/

/-- From the spec table: a byte is kept as payload when READY sees a
non-IAC byte, when IN_COMMAND sees IAC (escaped 0xFF passes through), and
when IN_SB_IAC sees a byte that is neither IAC nor SE (the byte is not
deleted). -/
def spec_keep (state : telnet_parse_state_t) (c : Nat) : Bool :=
  match state with
  | telnet_parse_state_t.READY => c ≠ TELNET_IAC
  | telnet_parse_state_t.IN_COMMAND => c = TELNET_IAC
  | telnet_parse_state_t.IN_OPTION => false
  | telnet_parse_state_t.IN_SUBNEGOTIATION_TYPE => false
  | telnet_parse_state_t.IN_SUBNEGOTIATION_VALUE => false
  | telnet_parse_state_t.IN_SB_IAC => ¬(c = TELNET_IAC ∨ c = TELNET_SE)

/-- From the spec table: the successor parse state for each state and
byte. -/
def spec_next (state : telnet_parse_state_t) (c : Nat) : telnet_parse_state_t :=
  match state with
  | telnet_parse_state_t.READY =>
    if c = TELNET_IAC then telnet_parse_state_t.IN_COMMAND else telnet_parse_state_t.READY
  | telnet_parse_state_t.IN_COMMAND =>
    if c = TELNET_IAC then telnet_parse_state_t.READY
    else if c ∈ [TELNET_DO, TELNET_DONT, TELNET_WILL, TELNET_WONT] then
      telnet_parse_state_t.IN_OPTION
    else if c = TELNET_SB then telnet_parse_state_t.IN_SUBNEGOTIATION_TYPE
    else telnet_parse_state_t.READY
  | telnet_parse_state_t.IN_OPTION => telnet_parse_state_t.READY
  | telnet_parse_state_t.IN_SUBNEGOTIATION_TYPE =>
    telnet_parse_state_t.IN_SUBNEGOTIATION_VALUE
  | telnet_parse_state_t.IN_SUBNEGOTIATION_VALUE =>
    if c = TELNET_IAC then telnet_parse_state_t.IN_SB_IAC
    else telnet_parse_state_t.IN_SUBNEGOTIATION_VALUE
  | telnet_parse_state_t.IN_SB_IAC =>
    if c = TELNET_IAC then telnet_parse_state_t.IN_SUBNEGOTIATION_VALUE
    else if c = TELNET_SE then telnet_parse_state_t.READY
    else telnet_parse_state_t.IN_COMMAND

/-- The application payload of an input, per the spec table: the bytes the
table keeps, in order. -/
def spec_payload (state : telnet_parse_state_t) : List Nat → List Nat
  | [] => []
  | c :: rest =>
    (if spec_keep state c then [c] else []) ++ spec_payload (spec_next state c) rest

/-- The number of control bytes the spec table consumes (deletes) from an
input. -/
def spec_consumed (state : telnet_parse_state_t) : List Nat → Nat
  | [] => 0
  | c :: rest =>
    (if spec_keep state c then 0 else 1) + spec_consumed (spec_next state c) rest

/-! ## Concrete fixtures used by individual claims -/

/-- A callback that always allows the automatic response. -/
def const_true_callback : telnet_packet_t → Bool := fun _ => true

/-- A callback that always suppresses the automatic response. -/
def const_false_callback : telnet_packet_t → Bool := fun _ => false

/-- Oversized subnegotiation fixture: IAC SB, a type byte, 65 data bytes
(one more than the 64-byte capacity), then IAC SE. -/
def c3_input : List Nat := [255, 250, 0] ++ List.replicate 65 1 ++ [255, 240]

/-- Two back-to-back subnegotiations: IAC SB 0 65 IAC SE then
IAC SB 0 66 IAC SE. -/
def c5_input : List Nat := [255, 250, 0, 65, 255, 240, 255, 250, 0, 66, 255, 240]

/-- A subnegotiation packet whose data holds a literal IAC byte. -/
def c8_packet : telnet_packet_t :=
  { command := TELNET_SB
    option := 0
    subnegotiation_type := TELNET_SE_IS
    subnegotiation_length := 1
    subnegotiation_data := 255 :: List.replicate 63 0 }

/-- A session that supports option 1 and whose current packet is WILL 1. -/
def c4_session : telnet_session_t :=
  { telnet_init with
    options := 2
    packet := { telnet_init_packet with command := TELNET_WILL, option := 1 } }

/-! ## Helper lemmas: the index-based loop equals the byte fold -/

set_option maxRecDepth 8000 in
/-- Bounded version of the loop-fold equivalence: running the telnet_read
loop from index i is the same as folding telnet_read_step over the bytes
from index i, with the first i bytes kept in front of the output. -/
theorem telnet_read_loop_eq_bytes_aux (cb : Option (telnet_packet_t → Bool)) :
    ∀ (n : Nat) (s : telnet_session_t) (data : List Nat) (i : Nat),
    data.length - i ≤ n → i ≤ data.length →
    telnet_read_loop cb s data i =
      ⟨(telnet_read_bytes cb s (data.drop i)).s,
       data.take i ++ (telnet_read_bytes cb s (data.drop i)).out,
       (telnet_read_bytes cb s (data.drop i)).pkts,
       (telnet_read_bytes cb s (data.drop i)).ws⟩ := by
  intro n
  induction n with
  | zero =>
    intro s data i h1 h2
    have hi : i = data.length := by omega
    subst hi
    rw [telnet_read_loop.eq_def]
    simp [telnet_read_bytes]
  | succ n ih =>
    intro s data i h1 h2
    by_cases h : i < data.length
    · rw [telnet_read_loop.eq_def]
      simp only [dif_pos h]
      rw [List.drop_eq_getElem_cons h]
      simp only [telnet_read_bytes]
      by_cases hk : (telnet_read_step cb s data[i]).keep
      · have hr := ih (telnet_read_step cb s data[i]).s data (i + 1) (by omega) (by omega)
        simp only [hk, if_true, hr]
        have htake : data.take (i + 1) = data.take i ++ [data[i]] := by
          rw [List.take_succ]
          simp [List.getElem?_eq_getElem h]
        simp only [htake, List.append_assoc, List.singleton_append]
      · have hlen : (delete_uint8_tacter data i).length = data.length - 1 := by
          simp [delete_uint8_tacter, List.length_eraseIdx_of_lt h]
        have hr := ih (telnet_read_step cb s data[i]).s (delete_uint8_tacter data i) i
          (by omega) (by omega)
        have hdrop : (delete_uint8_tacter data i).drop i = data.drop (i + 1) := by
          simp only [delete_uint8_tacter, List.eraseIdx_eq_take_drop_succ]
          exact List.drop_left' (by simp; omega)
        have htake : (delete_uint8_tacter data i).take i = data.take i := by
          simp only [delete_uint8_tacter, List.eraseIdx_eq_take_drop_succ]
          exact List.take_left' (by simp; omega)
        simp only [hk, if_false, Bool.false_eq_true, hr, hdrop, htake]
    · have hi : i = data.length := by omega
      subst hi
      rw [telnet_read_loop.eq_def]
      simp [telnet_read_bytes]

/-- The telnet_read loop started at index 0 is the byte fold. -/
theorem telnet_read_loop_eq_bytes (cb : Option (telnet_packet_t → Bool))
    (s : telnet_session_t) (data : List Nat) :
    telnet_read_loop cb s data 0 = telnet_read_bytes cb s data := by
  have h := telnet_read_loop_eq_bytes_aux cb data.length s data 0 (by omega) (by omega)
  simpa using h

/-- telnet_read called with a session, a buffer and the length of that
buffer reduces to the byte fold over the buffer. -/
theorem telnet_read_eq_bytes (s : telnet_session_t) (buf : List Nat)
    (cb : Option (telnet_packet_t → Bool)) :
    telnet_read (some s) (some buf) buf.length cb =
      ⟨(telnet_read_bytes cb s buf).out.length,
       some (telnet_read_bytes cb s buf).out,
       some (telnet_read_bytes cb s buf).s,
       (telnet_read_bytes cb s buf).pkts,
       (telnet_read_bytes cb s buf).ws⟩ := by
  by_cases hb : buf.length = 0
  · have : buf = [] := List.length_eq_zero.mp hb
    subst this
    simp [telnet_read, telnet_read_bytes]
  · simp only [telnet_read, hb, if_false, List.take_length,
      telnet_read_loop_eq_bytes]

/-- Per-byte correspondence between the translated C switch and the spec
state table: the keep decision and the successor state agree. -/
theorem telnet_read_step_spec (cb : Option (telnet_packet_t → Bool))
    (s : telnet_session_t) (c : Nat) :
    (telnet_read_step cb s c).keep = spec_keep s.state c ∧
    (telnet_read_step cb s c).s.state = spec_next s.state c := by
  obtain ⟨st, pkt, opts, subs⟩ := s
  cases st <;>
    simp [telnet_read_step, spec_keep, spec_next] <;>
    split_ifs <;>
    simp_all

/-- The byte fold keeps exactly the payload bytes of the spec table, and
the number of bytes it drops is the spec count of consumed control
bytes. -/
theorem telnet_read_bytes_spec (cb : Option (telnet_packet_t → Bool)) :
    ∀ (data : List Nat) (s : telnet_session_t),
    (telnet_read_bytes cb s data).out = spec_payload s.state data ∧
    (telnet_read_bytes cb s data).out.length + spec_consumed s.state data = data.length := by
  intro data
  induction data with
  | nil =>
    intro s
    simp [telnet_read_bytes, spec_payload, spec_consumed]
  | cons c rest ih =>
    intro s
    have hstep := telnet_read_step_spec cb s c
    have ihs := ih (telnet_read_step cb s c).s
    rw [hstep.2] at ihs
    have hlen : (spec_payload (spec_next s.state c) rest).length +
        spec_consumed (spec_next s.state c) rest = rest.length := by
      rw [← ihs.1]
      exact ihs.2
    refine ⟨?_, ?_⟩
    · simp only [telnet_read_bytes, spec_payload, hstep.1, ihs.1]
      by_cases hkeep : spec_keep s.state c <;> simp [hkeep]
    · simp only [telnet_read_bytes, spec_payload, spec_consumed, hstep.1, ihs.1]
      by_cases hkeep : spec_keep s.state c <;> simp [hkeep] <;> omega

/-- The byte fold over a concatenation is the fold over the first part
followed by the fold over the second from the resulting session, with
outputs, packets and writes concatenated. -/
theorem telnet_read_bytes_append (cb : Option (telnet_packet_t → Bool)) :
    ∀ (a b : List Nat) (s : telnet_session_t),
    telnet_read_bytes cb s (a ++ b) =
      ⟨(telnet_read_bytes cb (telnet_read_bytes cb s a).s b).s,
       (telnet_read_bytes cb s a).out ++ (telnet_read_bytes cb (telnet_read_bytes cb s a).s b).out,
       (telnet_read_bytes cb s a).pkts ++ (telnet_read_bytes cb (telnet_read_bytes cb s a).s b).pkts,
       (telnet_read_bytes cb s a).ws ++ (telnet_read_bytes cb (telnet_read_bytes cb s a).s b).ws⟩ := by
  intro a
  induction a with
  | nil =>
    intro b s
    simp [telnet_read_bytes]
  | cons c rest ih =>
    intro b s
    simp only [List.cons_append, telnet_read_bytes, ih, List.append_assoc]
    by_cases hk : (telnet_read_step cb s c).keep <;>
      simp [hk, ih b (telnet_read_step cb s c).s]

/-- A memcpy of the strlen-measured prefix of a value into a buffer, read
back for the same number of bytes, returns exactly that prefix. -/
theorem memcpy_c_str_take (dest value : List Nat) :
    (memcpy dest (c_str value) (strlen value)).take (strlen value) = c_str value := by
  unfold memcpy
  rw [show strlen value = (c_str value).length from rfl, List.take_length,
    List.take_left]

/-! ## Claims -/

/-- C1: FALSE of the code (code bug).  The spec and the claim say
telnet_write replaces every literal IAC byte by exactly one doubled
IAC IAC pair, so that the Reader collapses it back (round trip).  The C
loop increments new_length before the IAC test, so the segment written
before the escape already contains the IAC byte; every 0xFF in the input
is transmitted as three 0xFF bytes.  On input [255, 65] the writer sink
receives 255 255 255 65, and reading that back from a fresh session
yields [255] instead of [255, 65]: the third IAC starts a spurious
command that swallows the 65. -/
theorem claim_C1_write_escape_broken :
    telnet_write [255, 65] = [[255], [255, 255], [65]] ∧
    (telnet_read (some telnet_init) (some [255, 255, 255, 65])
      ([255, 255, 255, 65] : List Nat).length none).buffer = some [255] ∧
    (telnet_read (some telnet_init) (some [255, 255, 255, 65])
      ([255, 255, 255, 65] : List Nat).length none).buffer ≠ some [255, 65] := by
  refine ⟨by decide, ?_, ?_⟩ <;>
    rw [telnet_read_eq_bytes] <;> decide

/-- C2: CONFIRMED.  For every session in the READY state and every input
buffer, telnet_read returns the original length minus the number of
control bytes the spec state table consumes, and the resulting buffer is
exactly the payload the spec state table keeps, in order. -/
theorem claim_C2_compaction (s : telnet_session_t) (data : List Nat)
    (cb : Option (telnet_packet_t → Bool))
    (hready : s.state = telnet_parse_state_t.READY) :
    (telnet_read (some s) (some data) data.length cb).buffer =
      some (spec_payload telnet_parse_state_t.READY data) ∧
    (telnet_read (some s) (some data) data.length cb).length =
      data.length - spec_consumed telnet_parse_state_t.READY data := by
  rw [telnet_read_eq_bytes]
  have h := telnet_read_bytes_spec cb data s
  rw [hready] at h
  refine ⟨by simp [h.1], ?_⟩
  have h2 := h.2
  simp only [h.1] at h2 ⊢
  omega

/-- Witness for C2 at a concrete input: IAC NOP followed by a payload
byte. -/
theorem claim_C2_compaction_witness :
    (telnet_read (some telnet_init) (some [255, 241, 65])
      ([255, 241, 65] : List Nat).length none).buffer =
      some (spec_payload telnet_parse_state_t.READY [255, 241, 65]) ∧
    (telnet_read (some telnet_init) (some [255, 241, 65])
      ([255, 241, 65] : List Nat).length none).length =
      ([255, 241, 65] : List Nat).length -
        spec_consumed telnet_parse_state_t.READY [255, 241, 65] :=
  claim_C2_compaction telnet_init [255, 241, 65] none rfl

/-- C3: FALSE of the code (code bug).  The claim (and the spec, which
itself flags the omission as a defect of the reference implementation)
requires a bounds check of subnegotiation_length against the 64-byte
capacity before each append.  The C append at line 297 of the source has
no check.  Feeding IAC SB, a type byte, 65 data bytes and IAC SE drives
subnegotiation_length to 65: the 65th store went past the end of the
64-byte array, and the invariant subnegotiation_length less or equal 64
is violated in the dispatched packet. -/
theorem claim_C3_unchecked_append :
    ((telnet_read (some telnet_init) (some c3_input) c3_input.length none).pkts.map
      fun p => p.subnegotiation_length) = [65] ∧ 64 < 65 := by
  refine ⟨?_, by decide⟩
  rw [telnet_read_eq_bytes]
  decide

/-- C4: CONFIRMED.  For every completed packet whose automatic reply is
not suppressed (and whose option lies in the closed enumeration, the
range where the C bit test and pointer table read are defined), dispatch
emits exactly the reply of the negotiation table: WILL yields DO when the
option bit is set and DONT otherwise; WONT always yields DONT; DO yields
WILL when supported, WONT otherwise; DONT always yields WONT; SB with
subnegotiation type SEND and a registered reply yields one
SB option IS reply-bytes packet (within the 64-byte response capacity);
every other command, and SB without SEND or without a registered reply,
yields no automatic reply. -/
theorem claim_C4_auto_response (s : telnet_session_t)
    (cb : Option (telnet_packet_t → Bool))
    (_hopt : s.packet.option < TELNET_OPTION_MAX)
    (hauto : automatic_response cb s.packet = true) :
    (s.packet.command = TELNET_WILL →
      handle_incomming_packet s cb =
        [[TELNET_IAC,
          if telnet_get_option s s.packet.option then TELNET_DO else TELNET_DONT,
          s.packet.option]]) ∧
    (s.packet.command = TELNET_WONT →
      handle_incomming_packet s cb = [[TELNET_IAC, TELNET_DONT, s.packet.option]]) ∧
    (s.packet.command = TELNET_DO →
      handle_incomming_packet s cb =
        [[TELNET_IAC,
          if telnet_get_option s s.packet.option then TELNET_WILL else TELNET_WONT,
          s.packet.option]]) ∧
    (s.packet.command = TELNET_DONT →
      handle_incomming_packet s cb = [[TELNET_IAC, TELNET_WONT, s.packet.option]]) ∧
    (s.packet.command = TELNET_SB →
      s.packet.subnegotiation_type = TELNET_SE_SEND →
      ∀ value, telnet_get_subnegotiation_option s s.packet.option = some value →
        strlen value ≤ 64 →
        handle_incomming_packet s cb =
          [[TELNET_IAC, TELNET_SB, s.packet.option, TELNET_SE_IS] ++ c_str value ++
            [TELNET_IAC, TELNET_SE]]) ∧
    (s.packet.command = TELNET_SB →
      s.packet.subnegotiation_type ≠ TELNET_SE_SEND →
      handle_incomming_packet s cb = []) ∧
    (s.packet.command = TELNET_SB →
      telnet_get_subnegotiation_option s s.packet.option = none →
      handle_incomming_packet s cb = []) ∧
    (s.packet.command ∉ [TELNET_WILL, TELNET_WONT, TELNET_DO, TELNET_DONT, TELNET_SB] →
      handle_incomming_packet s cb = []) := by
  refine ⟨?_, ?_, ?_, ?_, ?_, ?_, ?_, ?_⟩
  · intro hc
    by_cases hg : telnet_get_option s s.packet.option <;>
      simp [handle_incomming_packet, hauto, hc, hg, telnet_write_packet,
        TELNET_WILL, TELNET_DO, TELNET_DONT, TELNET_WONT, TELNET_IAC]
  · intro hc
    simp [handle_incomming_packet, hauto, hc, telnet_write_packet,
      TELNET_WILL, TELNET_DO, TELNET_DONT, TELNET_WONT, TELNET_IAC]
  · intro hc
    by_cases hg : telnet_get_option s s.packet.option <;>
      simp [handle_incomming_packet, hauto, hc, hg, telnet_write_packet,
        TELNET_WILL, TELNET_DO, TELNET_DONT, TELNET_WONT, TELNET_IAC]
  · intro hc
    simp [handle_incomming_packet, hauto, hc, telnet_write_packet,
      TELNET_WILL, TELNET_DO, TELNET_DONT, TELNET_WONT, TELNET_IAC]
  · intro hc hty value hv hlen
    simp only [handle_incomming_packet, hauto, hc, hty, hv, telnet_write_packet]
    norm_num [TELNET_WILL, TELNET_DO, TELNET_DONT, TELNET_WONT, TELNET_SB,
      TELNET_IAC, TELNET_SE, TELNET_SE_IS, TELNET_SE_SEND, memcpy_c_str_take]
  · intro hc hty
    simp [handle_incomming_packet, hauto, hc, hty,
      TELNET_WILL, TELNET_DO, TELNET_DONT, TELNET_WONT, TELNET_SB]
  · intro hc hv
    by_cases hty : s.packet.subnegotiation_type = TELNET_SE_SEND <;>
      simp [handle_incomming_packet, hauto, hc, hty, hv,
        TELNET_WILL, TELNET_DO, TELNET_DONT, TELNET_WONT, TELNET_SB]
  · intro hc
    simp only [List.mem_cons, List.mem_singleton, not_or] at hc
    obtain ⟨h1, h2, h3, h4, h5, _⟩ := hc
    simp [handle_incomming_packet, hauto, h1, h2, h3, h4, h5]

/-- Witness for C4: a session supporting option 1 whose completed packet
is WILL 1, with no callback, answers with exactly one write of
IAC DO 1. -/
theorem claim_C4_auto_response_witness :
    handle_incomming_packet c4_session none = [[255, 253, 1]] := by
  rw [(claim_C4_auto_response c4_session none (by decide) (by decide)).1 (by decide)]
  decide

/-- C5: FALSE of the code (code bug).  The claim (and spec section 3)
says the current packet is reset to its defaults at the start of every
parse cycle, so no subnegotiation data from one packet remains counted in
the next.  The C source calls telnet_init_packet only in telnet_init and
in the IN_SB_IAC protocol-violation branch; on the normal path the packet
survives from one completed packet to the next, and
subnegotiation_length keeps growing.  Two back-to-back one-byte
subnegotiations dispatch a first packet with length 1 and data [65], and
then a second packet with length 2 and data [65, 66]: the 65 of the first
packet is still there. -/
theorem claim_C5_packet_not_reset :
    ((telnet_read (some telnet_init) (some c5_input) c5_input.length none).pkts.map
      fun p => (p.subnegotiation_length, p.subnegotiation_data.take p.subnegotiation_length)) =
      [(1, [65]), (2, [65, 66])] := by
  rw [telnet_read_eq_bytes]
  decide

/-- C6: FALSE of the code (code bug).  The claim, the header comment and
the README all describe telnet_supported_options as setting the bit of
each named option; the spec itself notes that the reference
implementation reads the variadic list but never applies it.  The C body
only reads bits and stores nothing, so after calling it on a fresh
session with option BINARY named, the BINARY bit is still clear and the
whole bitset is unchanged. -/
theorem claim_C6_supported_options_noop :
    (telnet_supported_options telnet_init TELNET_OPTION_BINARY []).options = 0 ∧
    telnet_get_option (telnet_supported_options telnet_init TELNET_OPTION_BINARY [])
      TELNET_OPTION_BINARY = false := by
  decide

/-- C7: CONFIRMED.  When the callback returns false on the completed
packet, dispatch performs zero writer invocations; when no callback is
supplied, dispatch behaves exactly as with a callback that returns
true. -/
theorem claim_C7_callback_suppression (s : telnet_session_t)
    (f : telnet_packet_t → Bool) :
    (f s.packet = false → handle_incomming_packet s (some f) = []) ∧
    handle_incomming_packet s none = handle_incomming_packet s (some const_true_callback) := by
  constructor
  · intro hf
    simp [handle_incomming_packet, automatic_response, hf]
  · simp [handle_incomming_packet, automatic_response, const_true_callback]

/-- Witness for C7: the always-false callback on a fresh session yields
no writes, and the missing callback agrees with the always-true one. -/
theorem claim_C7_callback_suppression_witness :
    handle_incomming_packet telnet_init (some const_false_callback) = [] ∧
    handle_incomming_packet telnet_init none =
      handle_incomming_packet telnet_init (some const_true_callback) :=
  ⟨(claim_C7_callback_suppression telnet_init const_false_callback).1 rfl,
   (claim_C7_callback_suppression telnet_init const_false_callback).2⟩

/-- C8: FALSE of the code (code bug).  The claim, and the header comment
above telnet_write_packet (it escapes data as necessary to conform to
the telnet protocol), require IAC doubled wherever it occurs literally
inside subnegotiation data.  The C serializer memcpys the data raw.  A
subnegotiation packet whose one data byte is 0xFF serializes to
IAC SB 0 0 FF IAC SE, with a single FF where the claim requires FF FF. -/
theorem claim_C8_write_packet_no_escaping :
    telnet_write_packet c8_packet = [255, 250, 0, 0, 255, 255, 240] ∧
    telnet_write_packet c8_packet ≠ [255, 250, 0, 0, 255, 255, 255, 240] := by
  decide

/-- C9 counterexample: the claim says every null required input returns
the original length unmodified, but telnet_read with a NULL data pointer
and length 5 returns 0, not 5. -/
theorem claim_C9_counterexample :
    (telnet_read (some telnet_init) none 5 none).length = 0 ∧
    (telnet_read (some telnet_init) none 5 none).length ≠ 5 := by
  decide

/-- C9 as amended: length zero is a no-op returning 0 with nothing
touched; a NULL data pointer is a silent no-op returning 0 (not the
original length); an absent session leaves the buffer untouched,
performs no writes, and returns the original length whenever a buffer
and a nonzero length were supplied. -/
theorem claim_C9_invalid_arguments (session : Option telnet_session_t)
    (data : Option (List Nat)) (length : Nat)
    (cb : Option (telnet_packet_t → Bool)) :
    (length = 0 → telnet_read session data length cb =
      ⟨0, data, session, [], []⟩) ∧
    (data = none → telnet_read session data length cb =
      ⟨0, none, session, [], []⟩) ∧
    (session = none →
      (telnet_read session data length cb).buffer = data ∧
      (telnet_read session data length cb).session = none ∧
      (telnet_read session data length cb).ws = [] ∧
      (data ≠ none → length ≠ 0 →
        (telnet_read session data length cb).length = length)) := by
  refine ⟨?_, ?_, ?_⟩
  · intro h0
    subst h0
    cases data <;> simp [telnet_read]
  · intro hd
    subst hd
    simp [telnet_read]
  · intro hs
    subst hs
    cases data with
    | none => simp [telnet_read]
    | some buf =>
      by_cases h0 : length = 0 <;> simp [telnet_read, h0]

/-- Witness for C9: with no session, a one-byte buffer and length 1, the
buffer comes back untouched and the returned length is the original. -/
theorem claim_C9_invalid_arguments_witness :
    (telnet_read none (some [7]) 1 none).buffer = some [7] ∧
    (telnet_read none (some [7]) 1 none).length = 1 :=
  have h := (claim_C9_invalid_arguments none (some [7]) 1 none).2.2 rfl
  ⟨h.1, h.2.2.2 (by simp) (by decide)⟩

/-- C10: CONFIRMED.  Splitting an input into two buffers and reading them
in sequence from a fresh session produces the same compacted payload
(concatenated), the same dispatched packets and the same writer
invocations as reading the concatenation at once: the parse state stored
in the session makes chunked reads equivalent to one read. -/
theorem claim_C10_chunked_reads (cb : Option (telnet_packet_t → Bool))
    (a b : List Nat) :
    (telnet_read (some telnet_init) (some a) a.length cb).buffer.getD [] ++
      (telnet_read (telnet_read (some telnet_init) (some a) a.length cb).session
        (some b) b.length cb).buffer.getD [] =
      (telnet_read (some telnet_init) (some (a ++ b)) (a ++ b).length cb).buffer.getD [] ∧
    (telnet_read (some telnet_init) (some a) a.length cb).pkts ++
      (telnet_read (telnet_read (some telnet_init) (some a) a.length cb).session
        (some b) b.length cb).pkts =
      (telnet_read (some telnet_init) (some (a ++ b)) (a ++ b).length cb).pkts ∧
    (telnet_read (some telnet_init) (some a) a.length cb).ws ++
      (telnet_read (telnet_read (some telnet_init) (some a) a.length cb).session
        (some b) b.length cb).ws =
      (telnet_read (some telnet_init) (some (a ++ b)) (a ++ b).length cb).ws := by
  rw [telnet_read_eq_bytes telnet_init a cb, telnet_read_eq_bytes telnet_init (a ++ b) cb]
  dsimp only
  rw [telnet_read_eq_bytes (telnet_read_bytes cb telnet_init a).s b cb]
  dsimp only
  rw [telnet_read_bytes_append cb a b telnet_init]
  exact ⟨rfl, rfl, rfl⟩

end EmbeddedTelnet
